import Mathlib

/-!
Shallow embedding of the export-construction core of the Bookkeeping repository:
`OverviewExportModel` (src/lib/public/models/OverviewExportModel.js) and its
specialization `RunsPerDataPassExportModel` (src/unnamed/part_000).

JavaScript plain objects are embedded as insertion-ordered association lists
with string keys; property read is first-match lookup (keys are unique in any
object the code builds), property write replaces in place or appends at the
end, exactly as JS property assignment orders string keys.
-/

namespace Bookkeeping

/-- A JavaScript value as far as the export pipeline observes it: strings,
numbers and null/undefined. Formatters map values to values. -/
inductive Value where
  | str (s : String) : Value
  | num (n : Int) : Value
  | null : Value
deriving DecidableEq

/-- First-match lookup in an association list: JS property read. -/
def alookup {β : Type} (k : String) : List (String × β) → Option β
  | [] => none
  | (k', v) :: rest => if k' = k then some v else alookup k rest

/-- The keys of an association list, in order, possibly with duplicates. -/
def keysOf {β : Type} (l : List (String × β)) : List String :=
  l.map Prod.fst

/-- JS property assignment `obj[k] = v`: replace the first binding of `k`
in place, or append a new binding at the end. -/
def insertEntry {β : Type} : List (String × β) → String → β → List (String × β)
  | [], k, v => [(k, v)]
  | (k', v') :: rest, k, v =>
    if k' = k then (k, v) :: rest else (k', v') :: insertEntry rest k v

/-- `Object.fromEntries`: build an object by assigning each pair in order;
the first occurrence of a key fixes its position, the last fixes its value. -/
def fromEntries {β : Type} (l : List (String × β)) : List (String × β) :=
  l.foldl (fun obj p => insertEntry obj p.1 p.2) []

/-- Left-biased combination of options (`a` wins when present). -/
def orO {β : Type} (a b : Option β) : Option β :=
  match a with
  | some v => some v
  | none => b

/-! ## Data model (spec §3, source data shapes) -/

/-- A reference object carrying an optional `name` attribute (`detector` and
`flagType` references); `none` models a missing/undefined name. -/
structure NameRef where
  name : Option String
deriving DecidableEq

/-- A QC flag annotation `{ detector, flagType, from, to }`. The `detector`
and `flagType` properties may be null/undefined (`none`). The timestamps are
named `fromTime`/`toTime` because `from` is a Lean keyword. -/
structure QcFlag where
  detector : Option NameRef
  flagType : Option NameRef
  fromTime : Int
  toTime : Int
deriving DecidableEq

/-- One exportable record: its pickable domain fields as an insertion-ordered
object, plus the optional `qcFlags` annotation collection (the spec's
"arbitrary domain fields plus an optional annotations collection"), modelled
as a separate component. -/
structure Item where
  fields : List (String × Value)
  qcFlags : Option (List QcFlag)
deriving DecidableEq

/-- One entry of a `RemoteData.failure` payload, `{ title, detail }`. -/
structure ErrorEntry where
  title : String
  detail : String
deriving DecidableEq

/-- The `RemoteData` fetch-state wrapper from `/js/src/index.js`, at its
interface boundary: not-asked, loading, success with a payload, or failure
with a list of error entries. -/
inductive RemoteData (α : Type) where
  | notAsked : RemoteData α
  | loading : RemoteData α
  | success (payload : α) : RemoteData α
  | failure (errors : List ErrorEntry) : RemoteData α
deriving DecidableEq

/-- `remoteData.isSuccess()`. -/
def RemoteData.isSuccess {α : Type} : RemoteData α → Bool
  | .success _ => true
  | _ => false

/-- `itemsRemoteData.isSuccess() ? itemsRemoteData.payload : []` from both
`createExport` implementations. -/
def currentItems (rd : RemoteData (List Item)) : List Item :=
  match rd with
  | .success payload => payload
  | _ => []

/-! ## The formatting pipeline (OverviewExportModel.js lines 120-155,
duplicated verbatim in the specialized variant) -/

/-- The truthy detector name of a flag: `detector?.name` when the optional
chain yields a non-empty string (the source guards with JS truthiness, so a
missing detector, a missing name and the empty string all yield `none`). -/
def detNameOf (f : QcFlag) : Option String :=
  match f.detector.bind NameRef.name with
  | some n => if n = "" then none else some n
  | none => none

/-- The rendered display text of one flag:
`(flagType?.name ?? "") ++ " ( from: " ++ from ++ " to: " ++ to ++ " )"`. -/
def flagText (f : QcFlag) : String :=
  (f.flagType.bind NameRef.name).getD "" ++ " ( from: " ++ toString f.fromTime
    ++ " to: " ++ toString f.toTime ++ " )"

/-- JS `Set.add` on an insertion-ordered set of strings. -/
def insertSet (s : List String) (x : String) : List String :=
  if x ∈ s then s else s ++ [x]

/-- One step of detector discovery: add the flag's truthy detector name. -/
def addFlagDet (s : List String) (f : QcFlag) : List String :=
  match detNameOf f with
  | some n => insertSet s n
  | none => s

/-- Detector discovery over one item: `item.qcFlags?.forEach(...)` adding
every truthy `detector.name` to the set (no flags contributes nothing). -/
def addItemDets (s : List String) (item : Item) : List String :=
  (item.qcFlags.getD []).foldl addFlagDet s

/-- The `detectors` set: every truthy detector name discovered across all
items' flags, in first-discovery order. -/
def collectDetectors (items : List Item) : List String :=
  items.foldl addItemDets []

/-- One step of `perDetectorFlags` construction:
`if (!perDetectorFlags[detName]) perDetectorFlags[detName] = [];`
`perDetectorFlags[detName].push(text)` — append to the group at the first
binding of that key, or create a new group at the end. -/
def addToGroup : List (String × List String) → String → String → List (String × List String)
  | [], k, t => [(k, [t])]
  | (k', l) :: rest, k, t =>
    if k' = k then (k', l ++ [t]) :: rest else (k', l) :: addToGroup rest k t

/-- One iteration of the `item.qcFlags?.forEach` grouping loop: a flag with
a falsy detector name is skipped (`if (!detName) return`), otherwise its
display text joins the group of its detector. -/
def addFlagToGroups (acc : List (String × List String)) (f : QcFlag) :
    List (String × List String) :=
  match detNameOf f with
  | some n => addToGroup acc n (flagText f)
  | none => acc

/-- The `perDetectorFlags` object of one item: its flags' display texts
grouped by truthy detector name, skipping flags with a falsy name. -/
def perDetectorFlags (flags : List QcFlag) : List (String × List String) :=
  flags.foldl addFlagToGroups []

/-- A formatter registry: `exportFormats[key]?.exportFormat || ((v) => v)` —
`none` covers both a missing entry and a falsy `exportFormat`, in which case
the raw value passes through; a formatter receives the raw value and the
full original record. -/
def Registry : Type := String → Option (Value → Item → Value)

/-- `exportFormats[key]?.exportFormat || ((v) => v)` applied to a value. -/
def applyFormatter (exportFormats : Registry) (key : String) (value : Value)
    (item : Item) : Value :=
  match exportFormats key with
  | some f => f value item
  | none => value

/-- Modelled from the spec: `pick.js` (src/lib/public/utilities/pick.js) is
not under src/. The spec states the projection keeps only the selected
fields, in their configured order, and silently drops field keys not present
on the record (an intersection, not a join). -/
def pick (fields : List (String × Value)) (keys : List String) : List (String × Value) :=
  keys.filterMap (fun k => (alookup k fields).map (fun v => (k, v)))

/-- `Object.entries(pick(item, selectedFields))` mapped through the
per-field formatters (lines 131-136): the projected entries, each value
passed through its registered formatter with the full item as context. -/
def projectAndFormat (exportFormats : Registry) (selectedFields : List String)
    (item : Item) : List (String × Value) :=
  (pick item.fields selectedFields).map
    (fun p => (p.1, applyFormatter exportFormats p.1 p.2 item))

/-- The per-detector columns appended to one item's entries: for each
discovered detector, the item's texts for that detector joined with `|`
(the empty string when the item has no flag for that detector). -/
def detectorColumns (detectors : List String) (item : Item) : List (String × Value) :=
  detectors.map
    (fun det =>
      (det, Value.str (String.intercalate "|"
        ((alookup det (perDetectorFlags (item.qcFlags.getD []))).getD []))))

/-- `Object.fromEntries(mapped)` for one item: the formatted selected
entries followed by one column per discovered detector. -/
def formatItem (exportFormats : Registry) (selectedFields : List String)
    (detectors : List String) (item : Item) : List (String × Value) :=
  fromEntries (projectAndFormat exportFormats selectedFields item
    ++ detectorColumns detectors item)

/-- The `formatted` array (detector discovery followed by per-item
formatting), shared verbatim by both `createExport` implementations. -/
def buildFormatted (exportFormats : Registry) (selectedFields : List String)
    (items : List Item) : List (List (String × Value)) :=
  items.map (formatItem exportFormats selectedFields (collectDetectors items))

/-! ## Sinks, effects and the models -/

/-- An invocation of one of the file sinks (`createCSVExport` /
`createJSONExport`), recorded with its rows, file name and MIME type. -/
inductive SinkCall where
  | csvSink (rows : List (List (String × Value))) (fileName : String) (mime : String)
  | jsonSink (rows : List (List (String × Value))) (fileName : String) (mime : String)
deriving DecidableEq

/-- The observable effects of one `createExport` call: every `setError`
invocation (each carrying the entries of the `RemoteData.failure` it was
passed), whether `this.notify()` fired, and every sink invocation. -/
structure ExportEffects where
  setErrorCalls : List (List ErrorEntry)
  notified : Bool
  sinkCalls : List SinkCall
deriving DecidableEq

/-- The final dispatch (lines 157-159): strict string comparison of the
selected export type against `"CSV"` picks the CSV sink, anything else the
JSON sink. -/
def dispatchSink (selectedExportType fileName : String)
    (formatted : List (List (String × Value))) : SinkCall :=
  if selectedExportType = "CSV" then
    SinkCall.csvSink formatted (fileName ++ ".csv") "text/csv;charset=utf-8;"
  else
    SinkCall.jsonSink formatted (fileName ++ ".json") "application/json"

/-- The failure entry of the empty/not-success early exit. -/
def noDataError : ErrorEntry :=
  { title := "No data found", detail := "No items were found with the provided filters" }

/-- The failure entry of the batch enrichment failure. -/
def qcFlagsFetchError : ErrorEntry :=
  { title := "QC flags fetch failed", detail := "Unable to fetch QC flags for export" }

/-- `OverviewExportModel` state: the current snapshot of the items source
(`this._items$.getCurrent()`), the selected fields, and the selected export
type (a plain string, `"JSON"` by default). -/
structure OverviewExportModel where
  items : RemoteData (List Item)
  selectedFields : List String
  selectedExportType : String
deriving DecidableEq

/-- `setSelectedExportType(exportType)`: stores the given value verbatim,
with no validation (it also notifies both channels, which does not alter
the stored state). -/
def OverviewExportModel.setSelectedExportType (m : OverviewExportModel)
    (exportType : String) : OverviewExportModel :=
  { m with selectedExportType := exportType }

/-- `OverviewExportModel.createExport(fileName, exportFormats, setError)`,
with `setErrorSupplied` recording whether the optional callback was passed,
returning the call's observable effects. -/
def OverviewExportModel.createExport (m : OverviewExportModel) (fileName : String)
    (exportFormats : Registry) (setErrorSupplied : Bool) : ExportEffects :=
  let items := currentItems m.items
  if !m.items.isSuccess || items.length == 0 then
    { setErrorCalls := if setErrorSupplied then [[noDataError]] else [],
      notified := true, sinkCalls := [] }
  else
    { setErrorCalls := [], notified := false,
      sinkCalls := [dispatchSink m.selectedExportType fileName
        (buildFormatted exportFormats m.selectedFields items)] }

/-! ## RunsPerDataPassExportModel (src/unnamed/part_000) -/

/-- `RunsPerDataPassExportModel` state: the inherited base state plus the
data pass id used to fetch QC flags. `none` models an unset (undefined or
null) id; `some n` an explicitly set numeric id. -/
structure RunsPerDataPassExportModel extends OverviewExportModel where
  dataPassId : Option Int
deriving DecidableEq

/-- `setDataPassId(dataPassId)`: stores the id verbatim. -/
def RunsPerDataPassExportModel.setDataPassId (m : RunsPerDataPassExportModel)
    (dataPassId : Option Int) : RunsPerDataPassExportModel :=
  { m with dataPassId := dataPassId }

/-- JS truthiness of `this._dataPassId` in the `if (this._dataPassId)`
guard: undefined/null and the number 0 are falsy. -/
def truthyId : Option Int → Bool
  | some n => n ≠ 0
  | none => false

/-- The destructured `runNumber` of a record in
`items.map(({ runNumber }) => runNumber)` and `run.runNumber`:
`none` models a record without that property. -/
def runNumberOf (item : Item) : Option Value :=
  alookup "runNumber" item.fields

/-- First-match lookup keyed by an optional run number (the `qcMap`
object). -/
def rlookup {β : Type} (k : Option Value) : List (Option Value × β) → Option β
  | [] => none
  | (k', v) :: rest => if k' = k then some v else rlookup k rest

/-- `map[runNumber] = items` over the `qcMap` object. -/
def rinsert {β : Type} : List (Option Value × β) → Option Value → β → List (Option Value × β)
  | [], k, v => [(k, v)]
  | (k', v') :: rest, k, v =>
    if k' = k then (k, v) :: rest else (k', v') :: rinsert rest k v

/-- The body of `_fetchQcFlags`'s per-record try/catch: a resolved lookup
yields the returned `items`, a rejection is caught and yields `[]`. -/
def fetchResult (fetch : Option Value → Except Unit (List QcFlag))
    (rn : Option Value) : List QcFlag :=
  match fetch rn with
  | .ok items => items
  | .error _ => []

/-- `_fetchQcFlags(runNumbers)`: one remote lookup per run number, in
order; a successful lookup stores the returned `items`, a rejected one is
caught and stores the empty list. The remote source is a parameter
`fetch`. -/
def fetchQcFlags (fetch : Option Value → Except Unit (List QcFlag))
    (runNumbers : List (Option Value)) : List (Option Value × List QcFlag) :=
  runNumbers.foldl (fun map rn => rinsert map rn (fetchResult fetch rn)) []

/-- The outcome of the awaited enrichment phase: either every per-record
lookup resolves through `_fetchQcFlags` (whose per-record rejections are
already caught inside it), or the phase as a whole throws outside the
per-record try. -/
inductive QcFetchOutcome where
  | resolves (fetch : Option Value → Except Unit (List QcFlag)) : QcFetchOutcome
  | batchFailure : QcFetchOutcome

/-- `items.map((run) => ({ ...run, qcFlags: qcMap[run.runNumber] || [] }))`:
each record's fields are kept and its annotation collection is replaced by
the fetched one (empty when absent). -/
def enrichItems (fetch : Option Value → Except Unit (List QcFlag))
    (items : List Item) : List Item :=
  let qcMap := fetchQcFlags fetch (items.map runNumberOf)
  items.map (fun run =>
    { fields := run.fields, qcFlags := some ((rlookup (runNumberOf run) qcMap).getD []) })

/-- `RunsPerDataPassExportModel.createExport(fileName, exportFormats,
setError)`: the inherited empty-snapshot check, then — when the data pass id
is truthy — the enrichment phase (aborting with the QC-flags failure if the
phase itself throws), then the inherited formatting pipeline and dispatch. -/
def RunsPerDataPassExportModel.createExport (m : RunsPerDataPassExportModel)
    (fileName : String) (exportFormats : Registry) (setErrorSupplied : Bool)
    (qcFetch : QcFetchOutcome) : ExportEffects :=
  let items := currentItems m.items
  if !m.items.isSuccess || items.length == 0 then
    { setErrorCalls := if setErrorSupplied then [[noDataError]] else [],
      notified := true, sinkCalls := [] }
  else if truthyId m.dataPassId then
    match qcFetch with
    | .batchFailure =>
      { setErrorCalls := if setErrorSupplied then [[qcFlagsFetchError]] else [],
        notified := false, sinkCalls := [] }
    | .resolves fetch =>
      { setErrorCalls := [], notified := false,
        sinkCalls := [dispatchSink m.selectedExportType fileName
          (buildFormatted exportFormats m.selectedFields (enrichItems fetch items))] }
  else
    { setErrorCalls := [], notified := false,
      sinkCalls := [dispatchSink m.selectedExportType fileName
        (buildFormatted exportFormats m.selectedFields items)] }

/-! ## Concrete fixtures (used to instantiate the theorems) -/

/-- A QC flag on detector TPC with kind BAD over [10, 20]. -/
def flagTpcBad : QcFlag :=
  { detector := some { name := some "TPC" }, flagType := some { name := some "BAD" },
    fromTime := 10, toTime := 20 }

/-- A second TPC flag with a missing kind reference, over [30, 40]. -/
def flagTpcAnon : QcFlag :=
  { detector := some { name := some "TPC" }, flagType := none,
    fromTime := 30, toTime := 40 }

/-- A flag on detector MFT with kind Good over [5, 6]. -/
def flagMft : QcFlag :=
  { detector := some { name := some "MFT" }, flagType := some { name := some "Good" },
    fromTime := 5, toTime := 6 }

/-- Run 1: two TPC flags and no MFT flag. -/
def runOne : Item :=
  { fields := [("runNumber", Value.num 1), ("fillNumber", Value.num 7)],
    qcFlags := some [flagTpcBad, flagTpcAnon] }

/-- Run 2: one MFT flag. -/
def runTwo : Item :=
  { fields := [("runNumber", Value.num 2)], qcFlags := some [flagMft] }

/-- A registry with a formatter registered for `runNumber` only; the
formatter derives its display value from the sibling `fillNumber` field,
falling back to the raw value. -/
def regRunNumber : Registry :=
  fun key =>
    if key = "runNumber" then
      some (fun v item => (alookup "fillNumber" item.fields).getD v)
    else none

/-- A base model over a successful two-run snapshot. -/
def baseModel : OverviewExportModel :=
  { items := RemoteData.success [runOne, runTwo],
    selectedFields := ["runNumber", "unknownField"],
    selectedExportType := "JSON" }

/-- A base model whose snapshot is still loading. -/
def emptyModel : OverviewExportModel :=
  { items := RemoteData.loading, selectedFields := ["runNumber"],
    selectedExportType := "JSON" }

/-- The specialized model over the two-run snapshot with data pass id 9. -/
def passModel : RunsPerDataPassExportModel :=
  { toOverviewExportModel := baseModel, dataPassId := some 9 }

/-- The specialized model with no data pass id configured. -/
def passModelUnset : RunsPerDataPassExportModel :=
  { toOverviewExportModel := baseModel, dataPassId := none }

/-- The specialized model with the data pass id explicitly set to 0. -/
def passModelZero : RunsPerDataPassExportModel :=
  { toOverviewExportModel := baseModel, dataPassId := some 0 }

/-- A loading-snapshot specialized model. -/
def emptyPassModel : RunsPerDataPassExportModel :=
  { toOverviewExportModel := emptyModel, dataPassId := some 9 }

/-- A remote source that rejects run 1's lookup and answers every other
lookup with one TPC flag. -/
def fetchRejectOne (rn : Option Value) : Except Unit (List QcFlag) :=
  if rn = some (Value.num 1) then Except.error () else Except.ok [flagTpcBad]

/-! ## Generic association-list lemmas -/

theorem orO_none_right {β : Type} (a : Option β) : orO a none = a := by
  cases a <;> rfl

theorem alookup_insertEntry {β : Type} (l : List (String × β)) (k : String) (v : β)
    (k' : String) :
    alookup k' (insertEntry l k v) = if k = k' then some v else alookup k' l := by
  induction l with
  | nil =>
    by_cases h : k = k' <;> simp [insertEntry, alookup, h]
  | cons p rest ih =>
    obtain ⟨k₁, v₁⟩ := p
    by_cases h₁ : k₁ = k
    · subst h₁
      by_cases h₂ : k₁ = k' <;> simp [insertEntry, alookup, h₂]
    · by_cases h₂ : k₁ = k'
      · subst h₂
        have hkk : ¬ k = k₁ := fun h => h₁ h.symm
        simp [insertEntry, alookup, h₁, hkk]
      · simp [insertEntry, alookup, h₁, h₂, ih]

theorem mem_keys_insertEntry {β : Type} (l : List (String × β)) (k : String) (v : β)
    (k' : String) :
    k' ∈ keysOf (insertEntry l k v) ↔ k' ∈ keysOf l ∨ k' = k := by
  induction l with
  | nil => simp [insertEntry, keysOf, eq_comm]
  | cons p rest ih =>
    obtain ⟨k₁, v₁⟩ := p
    by_cases h₁ : k₁ = k
    · subst h₁
      simp [insertEntry, keysOf, eq_comm]
      tauto
    · simp only [insertEntry, if_neg h₁, keysOf, List.map_cons, List.mem_cons] at ih ⊢
      tauto

theorem alookup_append {β : Type} (l₁ l₂ : List (String × β)) (k : String) :
    alookup k (l₁ ++ l₂) = orO (alookup k l₁) (alookup k l₂) := by
  induction l₁ with
  | nil => simp [alookup, orO]
  | cons p rest ih =>
    obtain ⟨k₁, v₁⟩ := p
    by_cases h : k₁ = k <;> simp [alookup, h, ih, orO]

theorem alookup_foldl_insert {β : Type} (l : List (String × β))
    (acc : List (String × β)) (k : String) :
    alookup k (l.foldl (fun obj p => insertEntry obj p.1 p.2) acc) =
      orO (alookup k l.reverse) (alookup k acc) := by
  induction l generalizing acc with
  | nil => simp [alookup, orO]
  | cons p rest ih =>
    obtain ⟨k₁, v₁⟩ := p
    simp only [List.foldl_cons, List.reverse_cons]
    rw [ih, alookup_append, alookup_insertEntry]
    by_cases h : k₁ = k
    · subst h
      cases alookup k₁ rest.reverse <;> simp [alookup, orO]
    · have hkk : ¬ k₁ = k := h
      cases alookup k rest.reverse <;> simp [alookup, orO, hkk]

/-- Lookup in `fromEntries` returns the value of the last pair with that key. -/
theorem alookup_fromEntries {β : Type} (l : List (String × β)) (k : String) :
    alookup k (fromEntries l) = alookup k l.reverse := by
  rw [fromEntries, alookup_foldl_insert, alookup, orO_none_right]

theorem mem_keys_foldl_insert {β : Type} (l : List (String × β))
    (acc : List (String × β)) (k : String) :
    k ∈ keysOf (l.foldl (fun obj p => insertEntry obj p.1 p.2) acc) ↔
      k ∈ keysOf acc ∨ k ∈ keysOf l := by
  induction l generalizing acc with
  | nil => simp [keysOf]
  | cons p rest ih =>
    obtain ⟨k₁, v₁⟩ := p
    simp only [List.foldl_cons]
    rw [ih]
    have hmem := mem_keys_insertEntry acc k₁ v₁ k
    simp only [keysOf, List.map_cons, List.mem_cons] at hmem ⊢
    tauto

/-- The key set of `Object.fromEntries l` is the key set of `l`. -/
theorem mem_keys_fromEntries {β : Type} (l : List (String × β)) (k : String) :
    k ∈ keysOf (fromEntries l) ↔ k ∈ keysOf l := by
  rw [fromEntries, mem_keys_foldl_insert]
  simp [keysOf]

/-! ## Helper lemmas about the pipeline -/

theorem alookup_isSome_iff {β : Type} (l : List (String × β)) (k : String) :
    (alookup k l).isSome = true ↔ k ∈ keysOf l := by
  induction l with
  | nil => simp [alookup, keysOf]
  | cons p rest ih =>
    obtain ⟨k₁, v₁⟩ := p
    by_cases h : k₁ = k
    · subst h
      simp [alookup, keysOf]
    · have h' : ¬ k = k₁ := fun e => h e.symm
      simp [alookup, keysOf, h, h', ih]

theorem alookup_pick (fields : List (String × Value)) (sf : List String) (k : String) :
    alookup k (pick fields sf) = if k ∈ sf then alookup k fields else none := by
  induction sf with
  | nil => simp [pick, alookup]
  | cons k₁ rest ih =>
    simp only [pick, List.filterMap_cons] at ih ⊢
    cases h₁ : alookup k₁ fields with
    | none =>
      simp only [Option.map_none']
      rw [ih]
      by_cases hk : k₁ = k
      · subst hk
        simp [h₁]
      · have hk' : ¬ k = k₁ := fun e => hk e.symm
        simp [List.mem_cons, hk']
    | some v =>
      simp only [Option.map_some']
      by_cases hk : k₁ = k
      · subst hk
        simp [alookup, h₁]
      · have hk' : ¬ k = k₁ := fun e => hk e.symm
        simp only [alookup, if_neg hk]
        rw [ih]
        simp [List.mem_cons, hk']

theorem mem_keys_pick (fields : List (String × Value)) (sf : List String) (k : String) :
    k ∈ keysOf (pick fields sf) ↔ k ∈ sf ∧ k ∈ keysOf fields := by
  rw [← alookup_isSome_iff, alookup_pick]
  by_cases h : k ∈ sf
  · rw [if_pos h, alookup_isSome_iff]
    simp [h]
  · simp [h]

theorem keys_mapValues {β γ : Type} (l : List (String × β)) (g : String → β → γ) :
    keysOf (l.map fun p => (p.1, g p.1 p.2)) = keysOf l := by
  induction l with
  | nil => rfl
  | cons p rest ih => simp [keysOf] at ih ⊢

theorem alookup_mapValues {β γ : Type} (l : List (String × β)) (g : String → β → γ)
    (k : String) :
    alookup k (l.map fun p => (p.1, g p.1 p.2)) = (alookup k l).map (g k) := by
  induction l with
  | nil => rfl
  | cons p rest ih =>
    obtain ⟨k₁, v₁⟩ := p
    by_cases h : k₁ = k
    · subst h
      simp [alookup]
    · simp [alookup, h, ih]

theorem keys_projectAndFormat (exportFormats : Registry) (sf : List String) (item : Item) :
    keysOf (projectAndFormat exportFormats sf item) = keysOf (pick item.fields sf) := by
  rw [projectAndFormat]
  exact keys_mapValues _ (fun k v => applyFormatter exportFormats k v item)

theorem alookup_projectAndFormat (exportFormats : Registry) (sf : List String)
    (item : Item) (k : String) :
    alookup k (projectAndFormat exportFormats sf item) =
      (alookup k (pick item.fields sf)).map
        (fun v => applyFormatter exportFormats k v item) := by
  rw [projectAndFormat]
  exact alookup_mapValues _ (fun k v => applyFormatter exportFormats k v item) k

theorem mem_insertSet (s : List String) (x y : String) :
    y ∈ insertSet s x ↔ y ∈ s ∨ y = x := by
  by_cases h : x ∈ s
  · simp only [insertSet, if_pos h]
    constructor
    · exact Or.inl
    · rintro (hy | rfl)
      · exact hy
      · exact h
  · simp [insertSet, h]

theorem nodup_insertSet (s : List String) (x : String) (h : s.Nodup) :
    (insertSet s x).Nodup := by
  by_cases hx : x ∈ s
  · simpa [insertSet, hx] using h
  · simp [insertSet, hx, List.nodup_append, h]

theorem mem_foldl_addFlagDet (flags : List QcFlag) (s : List String) (d : String) :
    d ∈ flags.foldl addFlagDet s ↔ d ∈ s ∨ ∃ f ∈ flags, detNameOf f = some d := by
  induction flags generalizing s with
  | nil => simp
  | cons f rest ih =>
    simp only [List.foldl_cons]
    rw [ih]
    cases h : detNameOf f with
    | none => simp [addFlagDet, h, List.exists_mem_cons_iff]
    | some n =>
      simp [addFlagDet, h, mem_insertSet, List.exists_mem_cons_iff]
      tauto

theorem mem_foldl_addItemDets (items : List Item) (s : List String) (d : String) :
    d ∈ items.foldl addItemDets s ↔
      d ∈ s ∨ ∃ item ∈ items, ∃ f ∈ item.qcFlags.getD [], detNameOf f = some d := by
  induction items generalizing s with
  | nil => simp
  | cons it rest ih =>
    simp only [List.foldl_cons]
    rw [ih, addItemDets, mem_foldl_addFlagDet, List.exists_mem_cons_iff]
    exact or_assoc

theorem mem_collectDetectors (items : List Item) (d : String) :
    d ∈ collectDetectors items ↔
      ∃ item ∈ items, ∃ f ∈ item.qcFlags.getD [], detNameOf f = some d := by
  rw [collectDetectors, mem_foldl_addItemDets]
  simp

theorem nodup_foldl_addFlagDet (flags : List QcFlag) (s : List String) (h : s.Nodup) :
    (flags.foldl addFlagDet s).Nodup := by
  induction flags generalizing s with
  | nil => exact h
  | cons f rest ih =>
    simp only [List.foldl_cons]
    apply ih
    cases hd : detNameOf f
    · simpa [addFlagDet, hd] using h
    · simpa [addFlagDet, hd] using nodup_insertSet s _ h

theorem nodup_collectDetectors (items : List Item) : (collectDetectors items).Nodup := by
  rw [collectDetectors]
  have grow : ∀ (l : List Item) (s : List String), s.Nodup → (l.foldl addItemDets s).Nodup := by
    intro l
    induction l with
    | nil => intro s hs; exact hs
    | cons it rest ih =>
      intro s hs
      simp only [List.foldl_cons]
      exact ih _ (nodup_foldl_addFlagDet _ _ hs)
  exact grow items [] (by simp)

theorem alookup_map_keys {γ : Type} (ds : List String) (v : String → γ) (k : String)
    (hnd : ds.Nodup) (hk : k ∈ ds) :
    alookup k (ds.map fun d => (d, v d)) = some (v k) := by
  induction ds with
  | nil => cases hk
  | cons d rest ih =>
    rcases List.mem_cons.mp hk with rfl | hk'
    · simp [alookup]
    · have hd : ¬ d = k := by
        rintro rfl
        exact (List.nodup_cons.mp hnd).1 hk'
      simp [alookup, hd, ih (List.nodup_cons.mp hnd).2 hk']

theorem alookup_addToGroup (acc : List (String × List String)) (n t k : String) :
    alookup k (addToGroup acc n t) =
      if n = k then some ((alookup k acc).getD [] ++ [t]) else alookup k acc := by
  induction acc with
  | nil => by_cases h : n = k <;> simp [addToGroup, alookup, h]
  | cons p rest ih =>
    obtain ⟨k₁, l₁⟩ := p
    by_cases h₁ : k₁ = n
    · subst h₁
      by_cases h₂ : k₁ = k <;> simp [addToGroup, alookup, h₂]
    · by_cases h₂ : k₁ = k
      · subst h₂
        have hns : ¬ n = k₁ := fun e => h₁ e.symm
        simp [addToGroup, alookup, h₁, hns]
      · simp [addToGroup, alookup, h₁, h₂, ih]

theorem alookup_foldl_addFlagToGroups (flags : List QcFlag)
    (acc : List (String × List String)) (k : String) :
    (alookup k (flags.foldl addFlagToGroups acc)).getD [] =
      (alookup k acc).getD []
        ++ (flags.filter (fun f => detNameOf f = some k)).map flagText := by
  induction flags generalizing acc with
  | nil => simp
  | cons f rest ih =>
    simp only [List.foldl_cons]
    rw [ih]
    cases h : detNameOf f with
    | none => simp [addFlagToGroups, h, List.filter_cons]
    | some n =>
      by_cases hn : n = k
      · subst hn
        simp [addFlagToGroups, h, alookup_addToGroup, List.filter_cons]
      · simp [addFlagToGroups, h, alookup_addToGroup, hn, List.filter_cons]

theorem alookup_perDetectorFlags (flags : List QcFlag) (k : String) :
    (alookup k (perDetectorFlags flags)).getD [] =
      (flags.filter (fun f => detNameOf f = some k)).map flagText := by
  rw [perDetectorFlags, alookup_foldl_addFlagToGroups]
  simp [alookup]

theorem rlookup_rinsert {β : Type} (l : List (Option Value × β)) (k : Option Value)
    (v : β) (k' : Option Value) :
    rlookup k' (rinsert l k v) = if k = k' then some v else rlookup k' l := by
  induction l with
  | nil =>
    by_cases h : k = k' <;> simp [rinsert, rlookup, h]
  | cons p rest ih =>
    obtain ⟨k₁, v₁⟩ := p
    by_cases h₁ : k₁ = k
    · subst h₁
      by_cases h₂ : k₁ = k' <;> simp [rinsert, rlookup, h₂]
    · by_cases h₂ : k₁ = k'
      · subst h₂
        have hns : ¬ k = k₁ := fun e => h₁ e.symm
        simp [rinsert, rlookup, h₁, hns]
      · simp [rinsert, rlookup, h₁, h₂, ih]

theorem rlookup_fetchQcFlags_aux (fetch : Option Value → Except Unit (List QcFlag))
    (rns : List (Option Value)) (acc : List (Option Value × List QcFlag))
    (rn : Option Value) :
    rlookup rn (rns.foldl (fun map r => rinsert map r (fetchResult fetch r)) acc) =
      if rn ∈ rns then some (fetchResult fetch rn) else rlookup rn acc := by
  induction rns generalizing acc with
  | nil => simp
  | cons r rest ih =>
    simp only [List.foldl_cons]
    rw [ih, rlookup_rinsert]
    by_cases hr : rn ∈ rest
    · simp [hr]
    · by_cases he : r = rn
      · subst he
        simp [hr]
      · have hne : ¬ rn = r := fun e => he e.symm
        simp [hr, he, hne]

theorem rlookup_fetchQcFlags (fetch : Option Value → Except Unit (List QcFlag))
    (rns : List (Option Value)) (rn : Option Value) :
    rlookup rn (fetchQcFlags fetch rns) =
      if rn ∈ rns then some (fetchResult fetch rn) else none := by
  rw [fetchQcFlags, rlookup_fetchQcFlags_aux]
  simp [rlookup]

theorem keys_detectorColumns (dets : List String) (item : Item) :
    keysOf (detectorColumns dets item) = dets := by
  induction dets with
  | nil => rfl
  | cons d rest ih => simp [detectorColumns, keysOf] at ih ⊢; exact ih

theorem mem_keys_formatItem (exportFormats : Registry) (sf : List String)
    (dets : List String) (item : Item) (k : String) :
    k ∈ keysOf (formatItem exportFormats sf dets item) ↔
      (k ∈ sf ∧ k ∈ keysOf item.fields) ∨ k ∈ dets := by
  rw [formatItem, mem_keys_fromEntries]
  have happ : keysOf (projectAndFormat exportFormats sf item ++ detectorColumns dets item)
      = keysOf (projectAndFormat exportFormats sf item) ++ keysOf (detectorColumns dets item) := by
    simp [keysOf]
  rw [happ, List.mem_append, keys_projectAndFormat, keys_detectorColumns, mem_keys_pick]

theorem alookup_detectorColumns (dets : List String) (item : Item) (det : String)
    (hnd : dets.Nodup) (hdet : det ∈ dets) :
    alookup det (detectorColumns dets item) =
      some (Value.str (String.intercalate "|"
        (((item.qcFlags.getD []).filter (fun f => detNameOf f = some det)).map flagText))) := by
  rw [detectorColumns, alookup_map_keys _ _ _ hnd hdet, alookup_perDetectorFlags]

theorem alookup_formatItem_det (exportFormats : Registry) (sf : List String)
    (dets : List String) (item : Item) (det : String)
    (hnd : dets.Nodup) (hdet : det ∈ dets) :
    alookup det (formatItem exportFormats sf dets item) =
      some (Value.str (String.intercalate "|"
        (((item.qcFlags.getD []).filter (fun f => detNameOf f = some det)).map flagText))) := by
  rw [formatItem, alookup_fromEntries, List.reverse_append, alookup_append]
  have hrev : (detectorColumns dets item).reverse = detectorColumns dets.reverse item := by
    simp [detectorColumns, List.map_reverse]
  rw [hrev, alookup_detectorColumns dets.reverse item det (by simpa using hnd) (by simpa using hdet)]
  rfl

theorem length_enrichItems (fetch : Option Value → Except Unit (List QcFlag))
    (items : List Item) :
    (enrichItems fetch items).length = items.length := by
  simp [enrichItems]

theorem enrichItems_getElem (fetch : Option Value → Except Unit (List QcFlag))
    (items : List Item) (i : Nat) (it : Item) (hit : items[i]? = some it) :
    (enrichItems fetch items)[i]? =
      some { fields := it.fields, qcFlags := some (fetchResult fetch (runNumberOf it)) } := by
  have hmem : it ∈ items := List.getElem?_mem hit
  have hrn : runNumberOf it ∈ items.map runNumberOf := List.mem_map_of_mem _ hmem
  simp only [enrichItems, List.getElem?_map, hit, Option.map_some']
  rw [rlookup_fetchQcFlags]
  simp [hrn]

theorem createExport_skipEnrichment (m : RunsPerDataPassExportModel)
    (fileName : String) (exportFormats : Registry) (setErrorSupplied : Bool)
    (qcFetch : QcFetchOutcome) (h : truthyId m.dataPassId = false) :
    m.createExport fileName exportFormats setErrorSupplied qcFetch =
      m.toOverviewExportModel.createExport fileName exportFormats setErrorSupplied := by
  simp [RunsPerDataPassExportModel.createExport, OverviewExportModel.createExport, h]

/-! ## The claims -/

/-- C1: for every configuration and both model variants, when the current
items snapshot is not a success or its success payload is empty,
`createExport` invokes `setError` exactly once with the
"No data found" / "No items were found with the provided filters" failure
when the callback is supplied (and never otherwise), fires the general
notification, and invokes no CSV or JSON sink. -/
theorem claim1_no_data_path (m : OverviewExportModel) (m₂ : RunsPerDataPassExportModel)
    (fileName : String) (exportFormats : Registry) (qcFetch : QcFetchOutcome)
    (h : m.items.isSuccess = false ∨ currentItems m.items = [])
    (h₂ : m₂.items.isSuccess = false ∨ currentItems m₂.items = []) :
    m.createExport fileName exportFormats true =
      { setErrorCalls := [[noDataError]], notified := true, sinkCalls := [] } ∧
    m.createExport fileName exportFormats false =
      { setErrorCalls := [], notified := true, sinkCalls := [] } ∧
    m₂.createExport fileName exportFormats true qcFetch =
      { setErrorCalls := [[noDataError]], notified := true, sinkCalls := [] } ∧
    m₂.createExport fileName exportFormats false qcFetch =
      { setErrorCalls := [], notified := true, sinkCalls := [] } := by
  have hc : (!m.items.isSuccess || (currentItems m.items).length == 0) = true := by
    rcases h with h | h <;> simp [h]
  have hc₂ : (!m₂.items.isSuccess || (currentItems m₂.items).length == 0) = true := by
    rcases h₂ with h | h <;> simp [h]
  refine ⟨?_, ?_, ?_, ?_⟩ <;>
    simp [OverviewExportModel.createExport, RunsPerDataPassExportModel.createExport, hc, hc₂]

/-- Witness for C1: both variants on a loading snapshot. -/
theorem claim1_no_data_path_witness :
    (emptyModel.items.isSuccess = false ∨ currentItems emptyModel.items = []) ∧
    (emptyPassModel.items.isSuccess = false ∨ currentItems emptyPassModel.items = []) ∧
    emptyModel.createExport "runs" (fun _ => none) true =
      { setErrorCalls := [[noDataError]], notified := true, sinkCalls := [] } ∧
    emptyPassModel.createExport "runs" (fun _ => none) true QcFetchOutcome.batchFailure =
      { setErrorCalls := [[noDataError]], notified := true, sinkCalls := [] } := by
  have h := claim1_no_data_path emptyModel emptyPassModel "runs" (fun _ => none)
    QcFetchOutcome.batchFailure (Or.inl (by decide)) (Or.inl (by decide))
  exact ⟨Or.inl (by decide), Or.inl (by decide), h.1, h.2.2.1⟩

/-- C2: on a non-empty successful snapshot the sink receives exactly the
per-item formatted rows, and every row's key set is (selected fields ∩ that
record's own field keys) ∪ (all detector names discovered across the whole
batch) — the detector columns are added uniformly to every record. -/
theorem claim2_column_keys (m : OverviewExportModel) (fileName : String)
    (exportFormats : Registry) (setErrorSupplied : Bool) (its : List Item)
    (hits : m.items = RemoteData.success its) (hne : its ≠ []) :
    (m.createExport fileName exportFormats setErrorSupplied).sinkCalls =
      [dispatchSink m.selectedExportType fileName
        (its.map (formatItem exportFormats m.selectedFields (collectDetectors its)))] ∧
    ∀ item ∈ its, ∀ k : String,
      k ∈ keysOf (formatItem exportFormats m.selectedFields (collectDetectors its) item) ↔
        (k ∈ m.selectedFields ∧ k ∈ keysOf item.fields) ∨ k ∈ collectDetectors its := by
  have hlen : (its.length == 0) = false := by
    cases its with
    | nil => exact absurd rfl hne
    | cons a l => rfl
  constructor
  · simp [OverviewExportModel.createExport, hits, currentItems, RemoteData.isSuccess,
      hlen, buildFormatted]
  · intro item _ k
    exact mem_keys_formatItem exportFormats m.selectedFields (collectDetectors its) item k

/-- Witness for C2: the TPC column is present on run 1's row even though
run 1 has no `TPC` field, because TPC is discovered across the batch. -/
theorem claim2_column_keys_witness :
    baseModel.items = RemoteData.success [runOne, runTwo] ∧
    [runOne, runTwo] ≠ [] ∧
    runOne ∈ [runOne, runTwo] ∧
    ("TPC" ∈ keysOf (formatItem regRunNumber baseModel.selectedFields
        (collectDetectors [runOne, runTwo]) runOne) ↔
      ("TPC" ∈ baseModel.selectedFields ∧ "TPC" ∈ keysOf runOne.fields) ∨
        "TPC" ∈ collectDetectors [runOne, runTwo]) :=
  ⟨rfl, by decide, by decide,
    (claim2_column_keys baseModel "runs" regRunNumber true [runOne, runTwo]
      rfl (by decide)).2 runOne (by decide) "TPC"⟩

/-- C3: for every record and every discovered detector, the record's output
column for that detector is the `|`-join of the record's flag texts for that
detector (kind name rendered as the empty string when absent), and a record
with no flag in a discovered detector gets the empty string. -/
theorem claim3_category_values (exportFormats : Registry) (sf : List String)
    (items : List Item) (item : Item) (det : String)
    (_hitem : item ∈ items) (hdet : det ∈ collectDetectors items) :
    alookup det (formatItem exportFormats sf (collectDetectors items) item) =
      some (Value.str (String.intercalate "|"
        (((item.qcFlags.getD []).filter (fun f => detNameOf f = some det)).map flagText))) ∧
    ((item.qcFlags.getD []).filter (fun f => detNameOf f = some det) = [] →
      alookup det (formatItem exportFormats sf (collectDetectors items) item) =
        some (Value.str "")) := by
  have h := alookup_formatItem_det exportFormats sf (collectDetectors items) item det
    (nodup_collectDetectors items) hdet
  refine ⟨h, fun hempty => ?_⟩
  rw [h, hempty]
  rfl

/-- Witness for C3: run 1's TPC column joins its two flag texts with `|`
(the second kind name rendered empty), and its MFT column — discovered via
run 2 — is the empty string. -/
theorem claim3_category_values_witness :
    runOne ∈ [runOne, runTwo] ∧
    "TPC" ∈ collectDetectors [runOne, runTwo] ∧
    "MFT" ∈ collectDetectors [runOne, runTwo] ∧
    alookup "TPC" (formatItem (fun _ => none) ["runNumber"]
        (collectDetectors [runOne, runTwo]) runOne) =
      some (Value.str "BAD ( from: 10 to: 20 )| ( from: 30 to: 40 )") ∧
    alookup "MFT" (formatItem (fun _ => none) ["runNumber"]
        (collectDetectors [runOne, runTwo]) runOne) = some (Value.str "") := by
  refine ⟨by decide, by decide, by decide, ?_, ?_⟩
  · rw [(claim3_category_values (fun _ => none) ["runNumber"] [runOne, runTwo]
      runOne "TPC" (by decide) (by decide)).1]
    decide
  · exact (claim3_category_values (fun _ => none) ["runNumber"] [runOne, runTwo]
      runOne "MFT" (by decide) (by decide)).2 (by decide)

/-- C4: the projection stage drops a key absent from the record (an
intersection, not a join); a present selected key's value goes through the
formatter registered for that key, applied to the raw value and the full
record; with no registered formatter the raw value passes through
unchanged. -/
theorem claim4_projection_formatting (exportFormats : Registry) (sf : List String)
    (item : Item) (k : String) :
    (alookup k item.fields = none →
      alookup k (projectAndFormat exportFormats sf item) = none) ∧
    (∀ v, alookup k item.fields = some v → k ∈ sf →
      alookup k (projectAndFormat exportFormats sf item) =
        some (applyFormatter exportFormats k v item)) ∧
    (∀ v, alookup k item.fields = some v → k ∈ sf → exportFormats k = none →
      alookup k (projectAndFormat exportFormats sf item) = some v) := by
  refine ⟨?_, ?_, ?_⟩
  · intro h
    rw [alookup_projectAndFormat, alookup_pick, h]
    split <;> rfl
  · intro v hv hk
    rw [alookup_projectAndFormat, alookup_pick, if_pos hk, hv]
    rfl
  · intro v hv hk hn
    rw [alookup_projectAndFormat, alookup_pick, if_pos hk, hv]
    simp [applyFormatter, hn]

/-- Witness for C4: run 1's `runNumber` is formatted by the registered
formatter, which reads the sibling `fillNumber` field of the full record;
the unknown selected key `unknownField` is dropped. -/
theorem claim4_projection_formatting_witness :
    alookup "runNumber" runOne.fields = some (Value.num 1) ∧
    "runNumber" ∈ baseModel.selectedFields ∧
    alookup "runNumber" (projectAndFormat regRunNumber baseModel.selectedFields runOne) =
      some (applyFormatter regRunNumber "runNumber" (Value.num 1) runOne) ∧
    alookup "unknownField" runOne.fields = none ∧
    alookup "unknownField" (projectAndFormat regRunNumber baseModel.selectedFields runOne) =
      none := by
  refine ⟨by decide, by decide, ?_, by decide, ?_⟩
  · exact (claim4_projection_formatting regRunNumber baseModel.selectedFields
      runOne "runNumber").2.1 (Value.num 1) (by decide) (by decide)
  · exact (claim4_projection_formatting regRunNumber baseModel.selectedFields
      runOne "unknownField").1 (by decide)

/-- C5: with a truthy data pass id, a record whose individual QC-flag fetch
rejects is enriched with the empty flag collection, still yields its row in
the dispatched export, and the failure is invisible to the caller: no
`setError` call is made and all records are exported. -/
theorem claim5_per_record_rejection (m : RunsPerDataPassExportModel)
    (fileName : String) (exportFormats : Registry) (setErrorSupplied : Bool)
    (fetch : Option Value → Except Unit (List QcFlag)) (its : List Item)
    (i : Nat) (it : Item)
    (hits : m.items = RemoteData.success its) (hid : truthyId m.dataPassId = true)
    (hit : its[i]? = some it) (hrej : fetch (runNumberOf it) = Except.error ()) :
    (m.createExport fileName exportFormats setErrorSupplied
        (QcFetchOutcome.resolves fetch)).setErrorCalls = [] ∧
    (m.createExport fileName exportFormats setErrorSupplied
        (QcFetchOutcome.resolves fetch)).sinkCalls =
      [dispatchSink m.selectedExportType fileName
        (buildFormatted exportFormats m.selectedFields (enrichItems fetch its))] ∧
    (enrichItems fetch its).length = its.length ∧
    (enrichItems fetch its)[i]? = some { fields := it.fields, qcFlags := some [] } := by
  have hlt : i < its.length := by
    by_contra hge
    rw [List.getElem?_eq_none (Nat.le_of_not_lt hge)] at hit
    cases hit
  have hlen : (its.length == 0) = false := by
    cases its with
    | nil => cases hlt
    | cons a l => rfl
  refine ⟨?_, ?_, length_enrichItems fetch its, ?_⟩
  · simp [RunsPerDataPassExportModel.createExport, hits, currentItems,
      RemoteData.isSuccess, hlen, hid]
  · simp [RunsPerDataPassExportModel.createExport, hits, currentItems,
      RemoteData.isSuccess, hlen, hid]
  · rw [enrichItems_getElem fetch its i it hit, fetchResult, hrej]

/-- Witness for C5: run 1's fetch rejects; its enriched record carries the
empty flag collection yet is still present at index 0. -/
theorem claim5_per_record_rejection_witness :
    passModel.items = RemoteData.success [runOne, runTwo] ∧
    truthyId passModel.dataPassId = true ∧
    [runOne, runTwo][0]? = some runOne ∧
    fetchRejectOne (runNumberOf runOne) = Except.error () ∧
    (passModel.createExport "runs" (fun _ => none) true
        (QcFetchOutcome.resolves fetchRejectOne)).setErrorCalls = [] ∧
    (enrichItems fetchRejectOne [runOne, runTwo])[0]? =
      some { fields := runOne.fields, qcFlags := some [] } := by
  have h := claim5_per_record_rejection passModel "runs" (fun _ => none) true
    fetchRejectOne [runOne, runTwo] 0 runOne rfl (by decide) rfl rfl
  exact ⟨rfl, by decide, rfl, rfl, h.1, h.2.2.2⟩

/-- C6: with a truthy data pass id, a batch enrichment failure (the phase
throwing outside the per-record try) makes `createExport` invoke `setError`
once with the "QC flags fetch failed" failure when supplied (and never
otherwise) and terminate with no sink invocation. -/
theorem claim6_batch_failure (m : RunsPerDataPassExportModel) (fileName : String)
    (exportFormats : Registry) (its : List Item)
    (hits : m.items = RemoteData.success its) (hne : its ≠ [])
    (hid : truthyId m.dataPassId = true) :
    m.createExport fileName exportFormats true QcFetchOutcome.batchFailure =
      { setErrorCalls := [[qcFlagsFetchError]], notified := false, sinkCalls := [] } ∧
    m.createExport fileName exportFormats false QcFetchOutcome.batchFailure =
      { setErrorCalls := [], notified := false, sinkCalls := [] } := by
  have hlen : (its.length == 0) = false := by
    cases its with
    | nil => exact absurd rfl hne
    | cons a l => rfl
  constructor <;>
    simp [RunsPerDataPassExportModel.createExport, hits, currentItems,
      RemoteData.isSuccess, hlen, hid]

/-- Witness for C6 on the two-run snapshot with data pass id 9. -/
theorem claim6_batch_failure_witness :
    passModel.items = RemoteData.success [runOne, runTwo] ∧
    [runOne, runTwo] ≠ [] ∧
    truthyId passModel.dataPassId = true ∧
    passModel.createExport "runs" (fun _ => none) true QcFetchOutcome.batchFailure =
      { setErrorCalls := [[qcFlagsFetchError]], notified := false, sinkCalls := [] } :=
  ⟨rfl, by decide, by decide,
    (claim6_batch_failure passModel "runs" (fun _ => none) [runOne, runTwo]
      rfl (by decide) (by decide)).1⟩

/-- C7: with no data pass id configured, the specialized `createExport`
coincides with the base variant's on the same snapshot, configuration and
registry — enrichment is skipped and the pre-existing annotations are used
verbatim, whatever the remote source would have done. -/
theorem claim7_unset_id_equals_base (m : RunsPerDataPassExportModel)
    (fileName : String) (exportFormats : Registry) (setErrorSupplied : Bool)
    (qcFetch : QcFetchOutcome) (h : m.dataPassId = none) :
    m.createExport fileName exportFormats setErrorSupplied qcFetch =
      m.toOverviewExportModel.createExport fileName exportFormats setErrorSupplied :=
  createExport_skipEnrichment m fileName exportFormats setErrorSupplied qcFetch
    (by rw [h]; rfl)

/-- Witness for C7 on the unset-id model over the two-run snapshot. -/
theorem claim7_unset_id_equals_base_witness :
    passModelUnset.dataPassId = none ∧
    passModelUnset.createExport "runs" (fun _ => none) true QcFetchOutcome.batchFailure =
      passModelUnset.toOverviewExportModel.createExport "runs" (fun _ => none) true :=
  ⟨rfl, claim7_unset_id_equals_base passModelUnset "runs" (fun _ => none) true
    QcFetchOutcome.batchFailure rfl⟩

/-- C8: with the same snapshot, fields and registry, selecting CSV versus
JSON dispatches the same formatted rows, differing only in sink choice,
file extension and MIME type. -/
theorem claim8_format_row_equality (m : OverviewExportModel) (fileName : String)
    (exportFormats : Registry) (setErrorSupplied : Bool) (its : List Item)
    (hits : m.items = RemoteData.success its) (hne : its ≠ []) :
    ((m.setSelectedExportType "CSV").createExport fileName exportFormats
        setErrorSupplied).sinkCalls =
      [SinkCall.csvSink (buildFormatted exportFormats m.selectedFields its)
        (fileName ++ ".csv") "text/csv;charset=utf-8;"] ∧
    ((m.setSelectedExportType "JSON").createExport fileName exportFormats
        setErrorSupplied).sinkCalls =
      [SinkCall.jsonSink (buildFormatted exportFormats m.selectedFields its)
        (fileName ++ ".json") "application/json"] := by
  have hlen : (its.length == 0) = false := by
    cases its with
    | nil => exact absurd rfl hne
    | cons a l => rfl
  constructor <;>
    simp [OverviewExportModel.createExport, OverviewExportModel.setSelectedExportType,
      hits, currentItems, RemoteData.isSuccess, hlen, dispatchSink]

/-- Witness for C8 on the two-run snapshot. -/
theorem claim8_format_row_equality_witness :
    baseModel.items = RemoteData.success [runOne, runTwo] ∧
    [runOne, runTwo] ≠ [] ∧
    ((baseModel.setSelectedExportType "CSV").createExport "runs" (fun _ => none)
        true).sinkCalls =
      [SinkCall.csvSink (buildFormatted (fun _ => none) baseModel.selectedFields
        [runOne, runTwo]) "runs.csv" "text/csv;charset=utf-8;"] ∧
    ((baseModel.setSelectedExportType "JSON").createExport "runs" (fun _ => none)
        true).sinkCalls =
      [SinkCall.jsonSink (buildFormatted (fun _ => none) baseModel.selectedFields
        [runOne, runTwo]) "runs.json" "application/json"] := by
  have h := claim8_format_row_equality baseModel "runs" (fun _ => none) true
    [runOne, runTwo] rfl (by decide)
  exact ⟨rfl, by decide, h.1, h.2⟩

/-- C9: any falsy data pass id — the explicitly set number 0 as well as an
unset (null/undefined) id — makes the specialized `createExport` skip
enrichment entirely: the outcome is independent of the remote source and
coincides with the base variant's, because the guard tests truthiness. -/
theorem claim9_falsy_id_skips (m : RunsPerDataPassExportModel) (fileName : String)
    (exportFormats : Registry) (setErrorSupplied : Bool) (qcFetch : QcFetchOutcome)
    (h : truthyId m.dataPassId = false) :
    truthyId (some 0) = false ∧ truthyId none = false ∧
    m.createExport fileName exportFormats setErrorSupplied qcFetch =
      m.toOverviewExportModel.createExport fileName exportFormats setErrorSupplied :=
  ⟨by decide, rfl,
    createExport_skipEnrichment m fileName exportFormats setErrorSupplied qcFetch h⟩

/-- Witness for C9 on the model whose data pass id is the number 0. -/
theorem claim9_falsy_id_skips_witness :
    truthyId passModelZero.dataPassId = false ∧
    passModelZero.createExport "runs" (fun _ => none) true QcFetchOutcome.batchFailure =
      passModelZero.toOverviewExportModel.createExport "runs" (fun _ => none) true :=
  ⟨by decide,
    (claim9_falsy_id_skips passModelZero "runs" (fun _ => none) true
      QcFetchOutcome.batchFailure (by decide)).2.2⟩

/-- C10: `setSelectedExportType` stores any value verbatim, and the dispatch
compares it strictly with "CSV": every other value — lowercase "csv"
included — selects the JSON sink with `.json` and `application/json`, and
exactly "CSV" selects the CSV sink. -/
theorem claim10_strict_csv_dispatch (m : OverviewExportModel) (t fileName : String)
    (exportFormats : Registry) (setErrorSupplied : Bool) (its : List Item)
    (hits : m.items = RemoteData.success its) (hne : its ≠ []) :
    (m.setSelectedExportType t).selectedExportType = t ∧
    (t ≠ "CSV" →
      ((m.setSelectedExportType t).createExport fileName exportFormats
          setErrorSupplied).sinkCalls =
        [SinkCall.jsonSink (buildFormatted exportFormats m.selectedFields its)
          (fileName ++ ".json") "application/json"]) ∧
    (t = "CSV" →
      ((m.setSelectedExportType t).createExport fileName exportFormats
          setErrorSupplied).sinkCalls =
        [SinkCall.csvSink (buildFormatted exportFormats m.selectedFields its)
          (fileName ++ ".csv") "text/csv;charset=utf-8;"]) := by
  have hlen : (its.length == 0) = false := by
    cases its with
    | nil => exact absurd rfl hne
    | cons a l => rfl
  refine ⟨rfl, fun ht => ?_, fun ht => ?_⟩ <;>
    simp [OverviewExportModel.createExport, OverviewExportModel.setSelectedExportType,
      hits, currentItems, RemoteData.isSuccess, hlen, dispatchSink, ht]

/-- Witness for C10: the lowercase string "csv" is stored verbatim and
dispatches to the JSON sink. -/
theorem claim10_strict_csv_dispatch_witness :
    baseModel.items = RemoteData.success [runOne, runTwo] ∧
    [runOne, runTwo] ≠ [] ∧
    "csv" ≠ "CSV" ∧
    (baseModel.setSelectedExportType "csv").selectedExportType = "csv" ∧
    ((baseModel.setSelectedExportType "csv").createExport "runs" (fun _ => none)
        true).sinkCalls =
      [SinkCall.jsonSink (buildFormatted (fun _ => none) baseModel.selectedFields
        [runOne, runTwo]) "runs.json" "application/json"] := by
  have h := claim10_strict_csv_dispatch baseModel "csv" "runs" (fun _ => none) true
    [runOne, runTwo] rfl (by decide)
  exact ⟨rfl, by decide, by decide, h.1, h.2.1 (by decide)⟩

end Bookkeeping
